import Mathlib

/-!
Verification of the LibreCrawl selector-search plugin
(`src/web/static/plugins/selector-search.js`).

The plugin sweeps the crawl inventory with a CSS selector: it filters
pages by status/content-type, fetches each eligible page's HTML in
batches of five, counts selector matches per page, and renders the
per-page counts sorted by count.

Shallow embedding conventions:
* `UrlData` mirrors the inventory records served by `/api/crawl_status`
  (`url`, `status_code`, `content_type`, `title`); nullable JS fields
  become `Option String`.
* The browser primitives `DOMParser.parseFromString` plus
  `document.querySelectorAll` are abstracted as an oracle
  `q : String → String → Option Nat`: `q html selector = some n` means
  `querySelectorAll` returns `n` nodes, `none` means it throws (invalid
  selector).  `parseFromString` with `text/html` never throws, per the
  HTML parsing algorithm, so parse failure is not a separate case.
* The `/api/fetch_html` endpoint is abstracted as
  `fetchHtml : String → FetchOutcome`; `FetchOutcome.threw` models the
  `fetch`/`json()` promise rejecting, `FetchOutcome.respond success html`
  models a parsed JSON body `{success, html}`.
* `await Promise.all(batch.map(...))`: each task's synchronous prologue
  (the two eligibility early-returns) settles at dispatch, in inventory
  order; the continuations of the eligible pages' fetches settle in an
  unspecified completion order.  That completion order is the explicit
  scheduler parameter `sched : Nat → List UrlData → List UrlData`, which
  reorders each batch's eligible sub-list (a faithful scheduler returns a
  permutation).  The `for` loop awaits each batch before slicing the
  next, so batches are strictly sequential — modelled by the recursion
  in `runGo`.
* `Array.prototype.sort` with comparator `(a, b) => b.count - a.count`
  is a stable sort (ES2019); a stable sort's output is a function of the
  input list and comparator, realised here by the stable insertion sort
  `sortByCountDesc`.
-/

namespace SelectorSearch

/-- An inventory record from `/api/crawl_status` (`data.urls` entries). -/
structure UrlData where
  url : String
  status_code : Nat
  content_type : Option String
  title : Option String
deriving Repr, DecidableEq

/-- An entry pushed onto `results` in `performSearch` (line 207). -/
structure ResultEntry where
  url : String
  title : String
  count : Nat
  status_code : Nat
deriving Repr, DecidableEq

/-- `this.searchState` (initialised in `onLoad`, lines 22-27). -/
structure SearchState where
  selector : String
  isSearching : Bool
  results : List ResultEntry
  error : Option String
deriving Repr, DecidableEq

/-- `onLoad` sets `searchState` to this value. -/
def initialSearchState : SearchState :=
  { selector := "", isSearching := false, results := [], error := none }

/-- Outcome of `await fetch('/api/fetch_html', ...)` + `await htmlResponse.json()`
for one URL: either the promise chain rejected (`threw`) or it produced a
JSON body `{success, html}`. -/
inductive FetchOutcome where
  | threw : FetchOutcome
  | respond : Bool → Option String → FetchOutcome
deriving Repr, DecidableEq

/-- JS `x || y` on a nullable string `x`: `null`, `undefined` and `""` are
falsy, any other string is returned as-is.  Used for
`urlData.title || urlData.url` (line 209). -/
def jsOrString (x : Option String) (dflt : String) : String :=
  match x with
  | some s => if s = "" then dflt else s
  | none => dflt

/-- JS truthiness of a nullable string (`htmlData.html` on line 202). -/
def jsTruthyStr (x : Option String) : Bool :=
  match x with
  | some s => s ≠ ""
  | none => false

/-- The string carried by a truthy nullable string (under `jsTruthyStr`
this is just the contained value). -/
def jsStrOrEmpty (x : Option String) : String :=
  match x with
  | some s => s
  | none => ""

/-- `pre` is a prefix of `s` (character lists). -/
def charsStartWith : List Char → List Char → Bool
  | [], _ => true
  | _ :: _, [] => false
  | a :: as, b :: bs => a == b && charsStartWith as bs

/-- `sub` occurs somewhere in `s` (character lists). -/
def charsContain (sub : List Char) : List Char → Bool
  | [] => charsStartWith sub []
  | c :: rest => charsStartWith sub (c :: rest) || charsContain sub rest

/-- JS `String.prototype.includes` (substring test), used for
`contentType.includes('text/html')` on line 186. -/
def strIncludes (s sub : String) : Bool :=
  charsContain sub.toList s.toList

def htmlMarker : String := "text/html"

/-- `const contentType = urlData.content_type || ''` (line 185). -/
def contentTypeOf (u : UrlData) : String :=
  match u.content_type with
  | some s => s
  | none => ""

/-- A page survives both early returns of the per-page task (lines
180-189): `status_code === 200` and content type contains `text/html`. -/
def eligible (u : UrlData) : Bool :=
  u.status_code == 200 && strIncludes (contentTypeOf u) htmlMarker

/-- The inner `try` of `countSelectorMatches` (lines 263-269):
`doc.querySelectorAll(selector)` either yields a count or throws, and the
inner `catch` re-throws `Error('Invalid CSS selector: ' + selector)`. -/
def countSelectorMatchesTry (q : String → String → Option Nat)
    (html selector : String) : Except String Nat :=
  match q html selector with
  | some n => Except.ok n
  | none => Except.error ("Invalid CSS selector: " ++ selector)

/-- `countSelectorMatches` (lines 256-276).  The outer `catch` — written
for `DOMParser` failures — also catches the error re-thrown by the inner
`catch`, and returns `0`. -/
def countSelectorMatches (q : String → String → Option Nat)
    (html selector : String) : Nat :=
  match countSelectorMatchesTry q html selector with
  | Except.ok n => n
  | Except.error _ => 0

/-- The body of the per-page task for a page that passed both eligibility
early-returns (lines 191-214): fetch the HTML; on `success && html`
(truthy) count matches; push a `ResultEntry` only when `count > 0`.  A
thrown fetch (`FetchOutcome.threw`) is absorbed by the per-page `catch`
(lines 215-217), so it simply produces no entry. -/
def runEligiblePage (fetchHtml : String → FetchOutcome)
    (q : String → String → Option Nat) (selector : String)
    (u : UrlData) : Option ResultEntry :=
  match fetchHtml u.url with
  | FetchOutcome.threw => none
  | FetchOutcome.respond success html =>
    if success && jsTruthyStr html then
      let count := countSelectorMatches q (jsStrOrEmpty html) selector
      if count > 0 then
        some { url := u.url, title := jsOrString u.title u.url,
               count := count, status_code := u.status_code }
      else none
    else none

/-- `Math.round((processed / totalUrls) * 100)` (line 224) for
non-negative integers: `Math.round x = ⌊x + 1/2⌋`, and
`⌊100*p/t + 1/2⌋ = (200*p + t) / (2*t)` in integer division. -/
def roundPct (p t : Nat) : Nat :=
  (200 * p + t) / (2 * t)

/-- The completion-order scheduler: for batch index `i`, reorders the
batch's eligible pages into the order their fetch continuations settle. -/
abbrev Sched := Nat → List UrlData → List UrlData

/-- `data.urls.slice(i, i + 5)` for `i = 0, 5, 10, ...` (lines 173-175),
with explicit fuel so the definition is structural. -/
def chunkGo (fuel : Nat) (xs : List UrlData) : List (List UrlData) :=
  match fuel, xs with
  | 0, _ => []
  | _, [] => []
  | f + 1, x :: rest => ((x :: rest).take 5) :: chunkGo f ((x :: rest).drop 5)

/-- The batches of the `for` loop: slices of the whole inventory, 5 at a
time (`batchSize = 5`, line 173). -/
def chunk5 (xs : List UrlData) : List (List UrlData) :=
  chunkGo xs.length xs

/-- Insert an entry into a count-descending list, after every entry with a
strictly larger count and before the rest — the position a stable sort
with comparator `(a, b) => b.count - a.count` assigns it. -/
def insertDesc (e : ResultEntry) : List ResultEntry → List ResultEntry
  | [] => [e]
  | y :: ys => if e.count < y.count then y :: insertDesc e ys else e :: y :: ys

/-- `results.sort((a, b) => b.count - a.count)` (line 233): stable sort by
count descending, as a stable insertion sort. -/
def sortByCountDesc : List ResultEntry → List ResultEntry
  | [] => []
  | x :: xs => insertDesc x (sortByCountDesc xs)

/-- The observable trace of the batch loop (lines 171-230). -/
structure RunOutput where
  rawResults : List ResultEntry
  processed : Nat
  progress : List Nat
  fetched : List String
deriving Repr, DecidableEq

/-- The `for` loop over batches.  Per batch: the ineligible pages settle
at dispatch, each incrementing `processed` twice (the explicit
`processed++` before the early `return` plus the `finally` block, lines
181, 187, 218); the eligible pages' fetches are dispatched in inventory
order (`fetched`), their continuations settle in the order given by
`sched`, each pushing at most one entry and incrementing `processed` once
(the `finally`).  After the batch settles, the progress percentage
`Math.round(processed / totalUrls * 100)` is published (lines 222-229;
the source only writes it to the button when the DOM nodes exist — the
value is what is modelled). -/
def runGo (fetchHtml : String → FetchOutcome) (q : String → String → Option Nat)
    (selector : String) (sched : Sched) (totalUrls : Nat) :
    Nat → Nat → List (List UrlData) → RunOutput
  | p0, _, [] =>
    { rawResults := [], processed := p0, progress := [], fetched := [] }
  | p0, i, batch :: rest =>
    let elig := batch.filter eligible
    let inelig := batch.filter (fun u => !eligible u)
    let completions := sched i elig
    let pushed := completions.filterMap (runEligiblePage fetchHtml q selector)
    let p1 := p0 + 2 * inelig.length + completions.length
    let tail := runGo fetchHtml q selector sched totalUrls p1 (i + 1) rest
    { rawResults := pushed ++ tail.rawResults,
      processed := tail.processed,
      progress := roundPct p1 totalUrls :: tail.progress,
      fetched := elig.map (fun u => u.url) ++ tail.fetched }

/-- The search sweep proper (lines 167-233): run the batch loop over the
whole inventory, then sort the pushed entries by count descending. -/
structure SearchRun where
  rawResults : List ResultEntry
  results : List ResultEntry
  processed : Nat
  progress : List Nat
  fetched : List String
deriving Repr, DecidableEq

def runBatches (fetchHtml : String → FetchOutcome)
    (q : String → String → Option Nat) (selector : String)
    (sched : Sched) (urls : List UrlData) : SearchRun :=
  let out := runGo fetchHtml q selector sched urls.length 0 0 (chunk5 urls)
  { rawResults := out.rawResults,
    results := sortByCountDesc out.rawResults,
    processed := out.processed,
    progress := out.progress,
    fetched := out.fetched }

/-- Notifications shown via `this.utils.showNotification(msg, kind)`. -/
inductive Notification where
  | errorNote : String → Notification
  | infoNote : String → Notification
  | successNote : String → Notification
deriving Repr, DecidableEq

/-- JS `String.prototype.trim` (line 143): strip whitespace from both
ends.  (JS also strips some further Unicode space characters;
`Char.isWhitespace` covers the ASCII ones, which is what the claims
exercise.) -/
def jsTrim (s : String) : String :=
  String.mk (((s.data.dropWhile Char.isWhitespace).reverse.dropWhile
    Char.isWhitespace).reverse)

def msgEmptySelector : String := "Please enter a CSS selector"

def msgNoPages : String := "No crawled pages available"

def msgNotFound (selector : String) : String :=
  "Selector \"" ++ selector ++ "\" not found on any pages"

def msgFound (selector : String) (n : Nat) : String :=
  "Found \"" ++ selector ++ "\" on " ++ toString n ++ " page(s)"

/-- How one call to `performSearch` returned. -/
inductive CallOutcome where
  | noInputElement : CallOutcome
  | rejectedEmptySelector : CallOutcome
  | rejectedNoUrls : CallOutcome
  | completed : CallOutcome
deriving Repr, DecidableEq

/-- The observable effects of one `performSearch()` call: the final
`searchState`, the transient state written before the sweep begins
(lines 158-161, `isSearching := true`), the URLs fetched, the sweep
trace, and the notification shown. -/
structure CallResult where
  outcome : CallOutcome
  state : SearchState
  runningState : Option SearchState
  fetched : List String
  run : Option SearchRun
  notification : Option Notification
deriving Repr, DecidableEq

/-- `performSearch` (lines 139-254).  `input` is the value of the
`selector-input` DOM element (`none` when the element is absent, line
141); `crawlUrls` is `data.urls` from `/api/crawl_status` (`[]` covers
both a missing and an empty array, line 153 — note the inventory request
itself happens only after the empty-selector check).  The function has
no `isSearching` guard: nothing in its body consults `st.isSearching`.
The outer `try`'s `catch` (lines 247-253) is unreachable in this model:
every per-page error is absorbed by the per-page `catch`, so
`Promise.all` never rejects, and the remaining body throws nothing —
hence the run always ends with `isSearching := false`, `error := none`. -/
def performSearch (st : SearchState) (input : Option String)
    (crawlUrls : List UrlData) (fetchHtml : String → FetchOutcome)
    (q : String → String → Option Nat) (sched : Sched) : CallResult :=
  match input with
  | none =>
    { outcome := CallOutcome.noInputElement, state := st, runningState := none,
      fetched := [], run := none, notification := none }
  | some raw =>
    let selector := jsTrim raw
    if selector = "" then
      { outcome := CallOutcome.rejectedEmptySelector, state := st,
        runningState := none, fetched := [], run := none,
        notification := some (Notification.errorNote msgEmptySelector) }
    else if crawlUrls.isEmpty then
      { outcome := CallOutcome.rejectedNoUrls, state := st,
        runningState := none, fetched := [], run := none,
        notification := some (Notification.errorNote msgNoPages) }
    else
      let searching : SearchState :=
        { selector := selector, isSearching := true, results := [], error := none }
      let run := runBatches fetchHtml q selector sched crawlUrls
      let final : SearchState :=
        { selector := selector, isSearching := false,
          results := run.results, error := none }
      { outcome := CallOutcome.completed, state := final,
        runningState := some searching, fetched := run.fetched,
        run := some run,
        notification := some
          (if run.results.isEmpty then Notification.infoNote (msgNotFound selector)
           else Notification.successNote (msgFound selector run.results.length)) }

/-- `renderResults` line 279:
`this.searchState.results.reduce((sum, r) => sum + r.count, 0)`. -/
def renderTotalMatches (results : List ResultEntry) : Nat :=
  results.foldl (fun sum r => sum + r.count) 0

/-- `render` line 107: the search button carries the `disabled` attribute
exactly while `isSearching`. -/
def searchButtonDisabled (st : SearchState) : Bool :=
  st.isSearching

/-- `render` line 96: the selector input carries the `disabled` attribute
exactly while `isSearching`. -/
def selectorInputDisabled (st : SearchState) : Bool :=
  st.isSearching

/-- `render` lines 131-135: the keypress handler calls `performSearch()`
only when the key is Enter and no search is in flight. -/
def enterKeyStartsSearch (st : SearchState) (key : String) : Bool :=
  key == "Enter" && !st.isSearching

/-! ### Helper lemmas -/

/-- A filter and its complement split a list's length. -/
lemma filter_split_length {α : Type} (p : α → Bool) (l : List α) :
    (l.filter p).length + (l.filter (fun a => !p a)).length = l.length := by
  induction l with
  | nil => simp
  | cons x xs ih =>
    cases h : p x <;> simp [List.filter_cons, h] <;> omega

lemma chunkGo_flatten (fuel : Nat) (xs : List UrlData)
    (h : xs.length ≤ fuel) : (chunkGo fuel xs).flatten = xs := by
  induction fuel generalizing xs with
  | zero =>
    cases xs with
    | nil => simp [chunkGo]
    | cons x rest => simp at h
  | succ f ih =>
    cases xs with
    | nil => simp [chunkGo]
    | cons x rest =>
      have hlen : ((x :: rest).drop 5).length ≤ f := by
        simp [List.length_drop] at h ⊢; omega
      simp only [chunkGo, List.flatten_cons, ih _ hlen, List.take_append_drop]

lemma chunk5_flatten (xs : List UrlData) : (chunk5 xs).flatten = xs :=
  chunkGo_flatten xs.length xs (Nat.le_refl _)

lemma chunkGo_mem_length {fuel : Nat} {xs : List UrlData} {b : List UrlData}
    (hb : b ∈ chunkGo fuel xs) : 0 < b.length ∧ b.length ≤ 5 := by
  induction fuel generalizing xs with
  | zero => simp [chunkGo] at hb
  | succ f ih =>
    cases xs with
    | nil => simp [chunkGo] at hb
    | cons x rest =>
      simp only [chunkGo, List.mem_cons] at hb
      rcases hb with hb | hb
      · subst hb
        constructor
        · simp [List.length_take]
        · simp [List.length_take]
      · exact ih hb

lemma chunk5_mem_length {xs : List UrlData} {b : List UrlData}
    (hb : b ∈ chunk5 xs) : 0 < b.length ∧ b.length ≤ 5 :=
  chunkGo_mem_length hb

/-- The batch sizes of `chunkGo` as a function of the list's length. -/
def chunkLenGo (fuel n : Nat) : List Nat :=
  match fuel, n with
  | 0, _ => []
  | _ + 1, 0 => []
  | f + 1, m + 1 => min (m + 1) 5 :: chunkLenGo f (m + 1 - 5)

lemma chunkGo_map_length (fuel : Nat) (xs : List UrlData) :
    (chunkGo fuel xs).map List.length = chunkLenGo fuel xs.length := by
  induction fuel generalizing xs with
  | zero => cases xs <;> simp [chunkGo, chunkLenGo]
  | succ f ih =>
    cases xs with
    | nil => simp [chunkGo, chunkLenGo]
    | cons x rest =>
      simp only [chunkGo, List.map_cons, ih, List.length_cons,
        List.length_take, List.length_drop, chunkLenGo, Nat.min_comm]

lemma chunk5_map_length (xs : List UrlData) :
    (chunk5 xs).map List.length = chunkLenGo xs.length xs.length :=
  chunkGo_map_length xs.length xs

lemma mem_insertDesc {e a : ResultEntry} {l : List ResultEntry} :
    a ∈ insertDesc e l ↔ a = e ∨ a ∈ l := by
  induction l with
  | nil => simp [insertDesc]
  | cons y ys ih =>
    by_cases h : e.count < y.count <;> simp [insertDesc, h, ih] <;> tauto

lemma perm_insertDesc (e : ResultEntry) (l : List ResultEntry) :
    (insertDesc e l).Perm (e :: l) := by
  induction l with
  | nil => simp [insertDesc]
  | cons y ys ih =>
    by_cases h : e.count < y.count
    · simp only [insertDesc, if_pos h]
      exact ((ih.cons y).trans (List.Perm.swap e y ys))
    · simp [insertDesc, if_neg h]

lemma perm_sortByCountDesc (l : List ResultEntry) :
    (sortByCountDesc l).Perm l := by
  induction l with
  | nil => simp [sortByCountDesc]
  | cons x xs ih =>
    exact (perm_insertDesc x (sortByCountDesc xs)).trans (ih.cons x)

lemma pairwise_insertDesc {e : ResultEntry} {l : List ResultEntry}
    (h : List.Pairwise (fun a b => b.count ≤ a.count) l) :
    List.Pairwise (fun a b => b.count ≤ a.count) (insertDesc e l) := by
  induction l with
  | nil => simp [insertDesc]
  | cons y ys ih =>
    rcases List.pairwise_cons.mp h with ⟨hy, hys⟩
    by_cases hc : e.count < y.count
    · simp only [insertDesc, if_pos hc]
      refine List.pairwise_cons.mpr ⟨?_, ih hys⟩
      intro a ha
      rcases mem_insertDesc.mp ha with rfl | ha
      · exact Nat.le_of_lt hc
      · exact hy a ha
    · simp only [insertDesc, if_neg hc]
      refine List.pairwise_cons.mpr ⟨?_, h⟩
      intro a ha
      rcases List.mem_cons.mp ha with rfl | ha
      · omega
      · exact Nat.le_trans (hy a ha) (by omega)

lemma pairwise_sortByCountDesc (l : List ResultEntry) :
    List.Pairwise (fun a b => b.count ≤ a.count) (sortByCountDesc l) := by
  induction l with
  | nil => simp [sortByCountDesc]
  | cons x xs ih => exact pairwise_insertDesc ih

lemma filter_insertDesc (e : ResultEntry) (l : List ResultEntry) (c : Nat) :
    (insertDesc e l).filter (fun a => a.count == c) =
      if e.count == c then e :: l.filter (fun a => a.count == c)
      else l.filter (fun a => a.count == c) := by
  induction l with
  | nil => simp [insertDesc, List.filter_cons]
  | cons y ys ih =>
    by_cases hc : e.count < y.count
    · simp only [insertDesc]
      rw [if_pos hc]
      by_cases hy : y.count = c
      · have he : ¬ e.count = c := by omega
        simp [List.filter_cons, ih, hy, he]
      · simp [List.filter_cons, ih, hy]
    · simp only [insertDesc]
      rw [if_neg hc]
      by_cases he : e.count = c <;> simp [List.filter_cons, he]

lemma filter_sortByCountDesc (l : List ResultEntry) (c : Nat) :
    (sortByCountDesc l).filter (fun a => a.count == c) =
      l.filter (fun a => a.count == c) := by
  induction l with
  | nil => simp [sortByCountDesc]
  | cons x xs ih =>
    simp only [sortByCountDesc, filter_insertDesc, List.filter_cons, ih]

lemma runEligiblePage_fields {f : String → FetchOutcome}
    {q : String → String → Option Nat} {s : String} {u : UrlData}
    {e : ResultEntry} (h : runEligiblePage f q s u = some e) :
    e.url = u.url ∧ e.title = jsOrString u.title u.url ∧
      e.status_code = u.status_code ∧ 0 < e.count := by
  cases hf : f u.url with
  | threw =>
    simp only [runEligiblePage, hf] at h
    exact absurd h (by simp)
  | respond success html =>
    simp only [runEligiblePage, hf] at h
    split at h
    · split at h
      · rename_i hcnt
        injection h with h
        subst h
        exact ⟨rfl, rfl, rfl, hcnt⟩
      · exact absurd h (by simp)
    · exact absurd h (by simp)

lemma runEligiblePage_congr {f g : String → FetchOutcome}
    {q : String → String → Option Nat} {s : String} {u : UrlData}
    (h : f u.url = g u.url) :
    runEligiblePage f q s u = runEligiblePage g q s u := by
  unfold runEligiblePage
  rw [h]

/-- "Fetch failure" in the sense of §4.1 step 4: the fetch promise chain
rejects, or the fetcher reports `success: false`. -/
def fetchFails : FetchOutcome → Prop
  | FetchOutcome.threw => True
  | FetchOutcome.respond success _ => success = false

lemma runEligiblePage_none_of_fail {f : String → FetchOutcome}
    {q : String → String → Option Nat} {s : String} {u : UrlData}
    (h : fetchFails (f u.url)) : runEligiblePage f q s u = none := by
  unfold runEligiblePage
  cases hf : f u.url with
  | threw => rfl
  | respond success html =>
    rw [hf] at h
    simp only [fetchFails] at h
    subst h
    simp

/-! ### Batch-loop characterizations -/

lemma runGo_fetched (f : String → FetchOutcome) (q : String → String → Option Nat)
    (s : String) (sched : Sched) (T : Nat) :
    ∀ (bs : List (List UrlData)) (p0 i : Nat),
      (runGo f q s sched T p0 i bs).fetched =
        (bs.map (fun b => (b.filter eligible).map (fun u => u.url))).flatten := by
  intro bs
  induction bs with
  | nil => intro p0 i; simp [runGo]
  | cons b rest ih =>
    intro p0 i
    simp only [runGo, List.map_cons, List.flatten_cons, ih]

lemma runGo_progress_length (f : String → FetchOutcome)
    (q : String → String → Option Nat) (s : String) (sched : Sched) (T : Nat) :
    ∀ (bs : List (List UrlData)) (p0 i : Nat),
      (runGo f q s sched T p0 i bs).progress.length = bs.length := by
  intro bs
  induction bs with
  | nil => intro p0 i; simp [runGo]
  | cons b rest ih =>
    intro p0 i
    simp only [runGo, List.length_cons, ih]

lemma runGo_processed (f : String → FetchOutcome)
    (q : String → String → Option Nat) (s : String) {sched : Sched}
    (hperm : ∀ i l, (sched i l).Perm l) (T : Nat) :
    ∀ (bs : List (List UrlData)) (p0 i : Nat),
      (runGo f q s sched T p0 i bs).processed =
        p0 + (bs.map (fun b =>
          b.length + (b.filter (fun u => !eligible u)).length)).sum := by
  intro bs
  induction bs with
  | nil => intro p0 i; simp [runGo]
  | cons b rest ih =>
    intro p0 i
    have hlen : (sched i (b.filter eligible)).length = (b.filter eligible).length :=
      (hperm i (b.filter eligible)).length_eq
    have hsplit := filter_split_length eligible b
    simp only [runGo, ih, List.map_cons, List.sum_cons, hlen]
    omega

lemma runGo_rawResults_mem (f : String → FetchOutcome)
    (q : String → String → Option Nat) (s : String) {sched : Sched}
    (hperm : ∀ i l, (sched i l).Perm l) (T : Nat) :
    ∀ (bs : List (List UrlData)) (p0 i : Nat) (e : ResultEntry),
      e ∈ (runGo f q s sched T p0 i bs).rawResults →
        ∃ v, (∃ b ∈ bs, v ∈ b) ∧ eligible v = true ∧
          runEligiblePage f q s v = some e := by
  intro bs
  induction bs with
  | nil => intro p0 i e he; simp [runGo] at he
  | cons b rest ih =>
    intro p0 i e he
    simp only [runGo, List.mem_append] at he
    rcases he with he | he
    · rcases List.mem_filterMap.mp he with ⟨v, hv, hrun⟩
      have hv' : v ∈ b.filter eligible := (hperm i (b.filter eligible)).mem_iff.mp hv
      rcases List.mem_filter.mp hv' with ⟨hvb, hvel⟩
      exact ⟨v, ⟨b, List.mem_cons_self b rest, hvb⟩, hvel, hrun⟩
    · rcases ih _ _ _ he with ⟨v, ⟨b', hb', hvb'⟩, hvel, hrun⟩
      exact ⟨v, ⟨b', List.mem_cons_of_mem b hb', hvb'⟩, hvel, hrun⟩

lemma runGo_rawResults_frame {f g : String → FetchOutcome}
    (q : String → String → Option Nat) (s : String) (sched : Sched) (T : Nat)
    {u0 : String} (hagree : ∀ url, url ≠ u0 → g url = f url) :
    ∀ (bs : List (List UrlData)) (p0 p0' i : Nat) (e : ResultEntry),
      e.url ≠ u0 →
        (e ∈ (runGo g q s sched T p0 i bs).rawResults ↔
          e ∈ (runGo f q s sched T p0' i bs).rawResults) := by
  intro bs
  induction bs with
  | nil => intro p0 p0' i e he; simp [runGo]
  | cons b rest ih =>
    intro p0 p0' i e heu
    simp only [runGo, List.mem_append]
    constructor
    · intro he
      rcases he with he | he
      · left
        rcases List.mem_filterMap.mp he with ⟨v, hv, hrun⟩
        refine List.mem_filterMap.mpr ⟨v, hv, ?_⟩
        by_cases hvu : v.url = u0
        · exact absurd ((runEligiblePage_fields hrun).1.trans hvu) heu
        · rw [← runEligiblePage_congr (hagree v.url hvu)]
          exact hrun
      · right
        exact (ih _ _ _ _ heu).mp he
    · intro he
      rcases he with he | he
      · left
        rcases List.mem_filterMap.mp he with ⟨v, hv, hrun⟩
        refine List.mem_filterMap.mpr ⟨v, hv, ?_⟩
        by_cases hvu : v.url = u0
        · exact absurd ((runEligiblePage_fields hrun).1.trans hvu) heu
        · rw [runEligiblePage_congr (hagree v.url hvu)]
          exact hrun
      · right
        exact (ih _ _ _ _ heu).mpr he

/-! ### Sweep-level characterizations -/

lemma flatten_filter_map (bss : List (List UrlData)) :
    (bss.map (fun b => (b.filter eligible).map (fun u => u.url))).flatten =
      ((bss.flatten).filter eligible).map (fun u => u.url) := by
  induction bss with
  | nil => simp
  | cons b rest ih =>
    simp only [List.map_cons, List.flatten_cons, List.filter_append,
      List.map_append, ih]

lemma runBatches_fetched (f : String → FetchOutcome)
    (q : String → String → Option Nat) (s : String) (sched : Sched)
    (urls : List UrlData) :
    (runBatches f q s sched urls).fetched =
      (urls.filter eligible).map (fun u => u.url) := by
  simp only [runBatches, runGo_fetched, flatten_filter_map, chunk5_flatten]

lemma sum_map_add_length (bss : List (List UrlData)) :
    (bss.map (fun b =>
      b.length + (b.filter (fun u => !eligible u)).length)).sum =
      (bss.flatten).length + ((bss.flatten).filter (fun u => !eligible u)).length := by
  induction bss with
  | nil => simp
  | cons b rest ih =>
    simp only [List.map_cons, List.sum_cons, List.flatten_cons,
      List.length_append, List.filter_append, ih]
    omega

lemma runBatches_processed (f : String → FetchOutcome)
    (q : String → String → Option Nat) (s : String) {sched : Sched}
    (hperm : ∀ i l, (sched i l).Perm l) (urls : List UrlData) :
    (runBatches f q s sched urls).processed =
      urls.length + (urls.filter (fun u => !eligible u)).length := by
  simp only [runBatches, runGo_processed f q s hperm, sum_map_add_length,
    chunk5_flatten, Nat.zero_add]

lemma runBatches_rawResults_mem (f : String → FetchOutcome)
    (q : String → String → Option Nat) (s : String) {sched : Sched}
    (hperm : ∀ i l, (sched i l).Perm l) (urls : List UrlData)
    {e : ResultEntry} (he : e ∈ (runBatches f q s sched urls).rawResults) :
    ∃ v ∈ urls, eligible v = true ∧ runEligiblePage f q s v = some e := by
  simp only [runBatches] at he
  rcases runGo_rawResults_mem f q s hperm urls.length (chunk5 urls) 0 0 e he
    with ⟨v, ⟨b, hb, hvb⟩, hvel, hrun⟩
  have hv : v ∈ urls := by
    rw [← chunk5_flatten urls]
    exact List.mem_flatten.mpr ⟨b, hb, hvb⟩
  exact ⟨v, hv, hvel, hrun⟩

lemma runBatches_results_perm (f : String → FetchOutcome)
    (q : String → String → Option Nat) (s : String) (sched : Sched)
    (urls : List UrlData) :
    (runBatches f q s sched urls).results.Perm
      (runBatches f q s sched urls).rawResults := by
  simp only [runBatches]
  exact perm_sortByCountDesc _

lemma runBatches_results_mem (f : String → FetchOutcome)
    (q : String → String → Option Nat) (s : String) {sched : Sched}
    (hperm : ∀ i l, (sched i l).Perm l) (urls : List UrlData)
    {e : ResultEntry} (he : e ∈ (runBatches f q s sched urls).results) :
    ∃ v ∈ urls, eligible v = true ∧ runEligiblePage f q s v = some e :=
  runBatches_rawResults_mem f q s hperm urls
    ((runBatches_results_perm f q s sched urls).mem_iff.mp he)

/-! ### Concrete fixtures for evaluation -/

def htmlSample : String := "<p></p>"

def htmlDiv : String := "<div></div>"

def selDiv : String := "div"

def selBad : String := "div["

def selSpaces : String := "   "

def pageA : UrlData :=
  { url := "a", status_code := 200, content_type := some "text/html", title := none }

def pageGood : UrlData :=
  { url := "b", status_code := 200, content_type := some "text/html", title := some "B" }

def pageBad : UrlData :=
  { url := "c", status_code := 404, content_type := some "text/html", title := none }

/-- A fetcher whose every response succeeds with a fixed page. -/
def fetchOK : String → FetchOutcome :=
  fun _ => FetchOutcome.respond true (some htmlSample)

/-- A fetcher that throws exactly on `pageA`'s URL. -/
def fetchFailA : String → FetchOutcome :=
  fun url => if url = pageA.url then FetchOutcome.threw
             else FetchOutcome.respond true (some htmlSample)

/-- `querySelectorAll` oracle: zero matches everywhere. -/
def qZero : String → String → Option Nat := fun _ _ => some 0

/-- `querySelectorAll` oracle: one match everywhere. -/
def qOne : String → String → Option Nat := fun _ _ => some 1

/-- `querySelectorAll` oracle: always throws (invalid selector). -/
def qNone : String → String → Option Nat := fun _ _ => none

/-- Completion order = dispatch (inventory) order. -/
def schedId : Sched := fun _ l => l

/-- Completion order = reverse of dispatch order (admissible: within a
batch the concurrent fetches may settle in any order). -/
def schedRev : Sched := fun _ l => l.reverse

/-- The running-state fixture: a search is in flight. -/
def stRunning : SearchState :=
  { selector := "x", isSearching := true, results := [], error := none }

/-- Ten pages: page 0 eligible, pages 1-4 ineligible (404), pages 5-9
eligible.  The five-page inventory slices are then `[u0..u4]`,
`[u5..u9]`, holding 1 and 5 eligible pages respectively. -/
def invMixed : List UrlData :=
  [ { url := "u0", status_code := 200, content_type := some "text/html", title := none },
    { url := "u1", status_code := 404, content_type := some "text/html", title := none },
    { url := "u2", status_code := 404, content_type := some "text/html", title := none },
    { url := "u3", status_code := 404, content_type := some "text/html", title := none },
    { url := "u4", status_code := 404, content_type := some "text/html", title := none },
    { url := "u5", status_code := 200, content_type := some "text/html", title := none },
    { url := "u6", status_code := 200, content_type := some "text/html", title := none },
    { url := "u7", status_code := 200, content_type := some "text/html", title := none },
    { url := "u8", status_code := 200, content_type := some "text/html", title := none },
    { url := "u9", status_code := 200, content_type := some "text/html", title := none } ]

/-- Twelve eligible HTML pages (the §8 scenario inventory). -/
def inv12 : List UrlData :=
  [ { url := "p01", status_code := 200, content_type := some "text/html", title := none },
    { url := "p02", status_code := 200, content_type := some "text/html", title := none },
    { url := "p03", status_code := 200, content_type := some "text/html", title := none },
    { url := "p04", status_code := 200, content_type := some "text/html", title := none },
    { url := "p05", status_code := 200, content_type := some "text/html", title := none },
    { url := "p06", status_code := 200, content_type := some "text/html", title := none },
    { url := "p07", status_code := 200, content_type := some "text/html", title := none },
    { url := "p08", status_code := 200, content_type := some "text/html", title := none },
    { url := "p09", status_code := 200, content_type := some "text/html", title := none },
    { url := "p10", status_code := 200, content_type := some "text/html", title := none },
    { url := "p11", status_code := 200, content_type := some "text/html", title := none },
    { url := "p12", status_code := 200, content_type := some "text/html", title := none } ]

/-- The batching the claim describes: the *eligible* pages partitioned
into batches of five.  Modelled from the claim's words, for comparison
with the code's batching. -/
def claimedEligibleBatches (urls : List UrlData) : List (List UrlData) :=
  chunk5 (urls.filter eligible)

/-- The batching the code performs, restricted to the pages that reach
the fetch stage: slices of the whole inventory, each filtered to its
eligible pages (the group whose fetches run concurrently). -/
def codeEligibleBatches (urls : List UrlData) : List (List UrlData) :=
  (chunk5 urls).map (fun b => b.filter eligible)

/-! ### Claim theorems -/

/-- C1 (code_bug evaluation): on an invalid selector the inner catch of
`countSelectorMatches` does build the `Invalid CSS selector` error, but
the enclosing outer catch swallows it and returns `0` — indistinguishable
from an ordinary zero-match result.  The whole run therefore ends
Completed (not Failed): `isSearching` is cleared, `error` stays `none`,
`results` is empty, and the user sees the informational "not found"
notification rather than an error. -/
theorem c1_invalid_selector_swallowed :
    countSelectorMatchesTry qNone htmlDiv selBad =
      Except.error ("Invalid CSS selector: " ++ selBad) ∧
    countSelectorMatches qNone htmlDiv selBad = 0 ∧
    countSelectorMatches qNone htmlDiv selBad = countSelectorMatches qZero htmlDiv selDiv ∧
    (performSearch initialSearchState (some selBad) [pageGood] fetchOK qNone schedId).outcome =
      CallOutcome.completed ∧
    (performSearch initialSearchState (some selBad) [pageGood] fetchOK qNone schedId).state.error =
      none ∧
    (performSearch initialSearchState (some selBad) [pageGood] fetchOK qNone schedId).state.results =
      [] ∧
    (performSearch initialSearchState (some selBad) [pageGood] fetchOK qNone schedId).notification =
      some (Notification.infoNote (msgNotFound selBad)) := by
  refine ⟨rfl, ?_⟩
  decide

/-- C2 (counterexample): two eligible pages `a`, `b` appear in that
inventory order and match the selector once each; if the concurrent
fetches within their batch complete in the order `b`, `a` (an admissible
completion order, `schedRev`), the tied results appear as `b`, `a` —
completion order, not the inventory order the claim requires. -/
theorem c2_ties_follow_completion_order :
    ([pageA, pageGood].map (fun u => u.url) = [pageA.url, pageGood.url]) ∧
    (∀ e ∈ (runBatches fetchOK qOne selDiv schedRev [pageA, pageGood]).results,
      e.count = 1) ∧
    ((runBatches fetchOK qOne selDiv schedRev [pageA, pageGood]).results.map
      (fun e => e.url) = [pageGood.url, pageA.url]) ∧
    ((runBatches fetchOK qOne selDiv schedRev [pageA, pageGood]).results.map
      (fun e => e.url) ≠ [pageA.url, pageGood.url]) ∧
    (∀ i l, (schedRev i l).Perm l) :=
  ⟨by decide, by decide, by decide, by decide, fun _ l => l.reverse_perm⟩

/-- C2 (amended): the final results are sorted by count non-increasing,
and entries with equal counts retain the relative order in which they
were pushed (`rawResults`: batch order, and fetch-completion order within
a batch) — which coincides with inventory order only when within-batch
completions follow dispatch order. -/
theorem c2_amended_sorted_stable (fetchHtml : String → FetchOutcome)
    (q : String → String → Option Nat) (selector : String) (sched : Sched)
    (urls : List UrlData) :
    List.Pairwise (fun a b => b.count ≤ a.count)
      (runBatches fetchHtml q selector sched urls).results ∧
    ∀ c, (runBatches fetchHtml q selector sched urls).results.filter
        (fun e => e.count == c) =
      (runBatches fetchHtml q selector sched urls).rawResults.filter
        (fun e => e.count == c) := by
  constructor
  · exact pairwise_sortByCountDesc _
  · intro c
    exact filter_sortByCountDesc _ c

/-- C3 (code_bug evaluation): inventory of one ineligible (404) and one
eligible page.  The ineligible page is counted twice (its explicit
`processed++` plus the `finally` block), so `processed` ends at 3 out of
2 inventory pages (1 eligible), and the published progress is
`Math.round(3/2*100) = 150` — beyond 100%, and not
`round(100·processed/totalEligible)` of the claim. -/
theorem c3_processed_overcount :
    (runBatches fetchOK qZero selDiv schedId [pageBad, pageGood]).processed = 3 ∧
    (runBatches fetchOK qZero selDiv schedId [pageBad, pageGood]).progress = [150] ∧
    ([pageBad, pageGood].filter eligible).length = 1 ∧
    [pageBad, pageGood].length = 2 := by
  decide

/-- C4 (counterexample): `performSearch` itself never consults
`isSearching`; invoked while a search is running (`stRunning`), it
proceeds to run a full second search (outcome Completed, a fetch
performed) instead of rejecting. -/
theorem c4_runs_while_searching :
    stRunning.isSearching = true ∧
    (performSearch stRunning (some selDiv) [pageGood] fetchOK qOne schedId).outcome =
      CallOutcome.completed ∧
    (performSearch stRunning (some selDiv) [pageGood] fetchOK qOne schedId).fetched =
      [pageGood.url] := by
  decide

/-- C4 (amended): while `isSearching`, the UI affordances refuse to start
a new search — the Enter-key handler ignores every key, and the search
button and selector input are rendered disabled — but the `performSearch`
entry point itself performs no such check. -/
theorem c4_amended_ui_guards (st : SearchState) (h : st.isSearching = true) :
    (∀ key, enterKeyStartsSearch st key = false) ∧
    searchButtonDisabled st = true ∧ selectorInputDisabled st = true := by
  refine ⟨?_, h, h⟩
  intro key
  simp [enterKeyStartsSearch, h]

theorem c4_amended_witness :
    stRunning.isSearching = true ∧
    ((∀ key, enterKeyStartsSearch stRunning key = false) ∧
      searchButtonDisabled stRunning = true ∧
      selectorInputDisabled stRunning = true) :=
  ⟨rfl, c4_amended_ui_guards stRunning rfl⟩

/-- C5: a selector that trims to the empty string is rejected before any
work: the call returns immediately with the validation notification, the
session state is untouched, no page is fetched, and no run (and hence no
progress state) is created.  (In the source the `/api/crawl_status`
inventory request also only happens after this check.) -/
theorem c5_empty_selector_rejected (st : SearchState) (raw : String)
    (crawlUrls : List UrlData) (fetchHtml : String → FetchOutcome)
    (q : String → String → Option Nat) (sched : Sched)
    (h : jsTrim raw = "") :
    performSearch st (some raw) crawlUrls fetchHtml q sched =
      { outcome := CallOutcome.rejectedEmptySelector, state := st,
        runningState := none, fetched := [], run := none,
        notification := some (Notification.errorNote msgEmptySelector) } := by
  simp [performSearch, h]

theorem c5_witness :
    jsTrim selSpaces = "" ∧
    performSearch stRunning (some selSpaces) [pageGood] fetchOK qOne schedId =
      { outcome := CallOutcome.rejectedEmptySelector, state := stRunning,
        runningState := none, fetched := [], run := none,
        notification := some (Notification.errorNote msgEmptySelector) } :=
  ⟨by decide, c5_empty_selector_rejected stRunning selSpaces [pageGood] fetchOK qOne
    schedId (by decide)⟩

lemma foldl_add_count (l : List ResultEntry) (n : Nat) :
    l.foldl (fun sum r => sum + r.count) n = n + (l.map (fun e => e.count)).sum := by
  induction l generalizing n with
  | nil => simp
  | cons x xs ih =>
    simp only [List.foldl_cons, ih, List.map_cons, List.sum_cons]
    omega

/-- C6: the `totalMatches` figure computed by `renderResults` (the
`reduce` over `searchState.results`) equals the arithmetic sum of the
`count` values over the results sequence of any completed sweep. -/
theorem c6_total_matches (fetchHtml : String → FetchOutcome)
    (q : String → String → Option Nat) (selector : String) (sched : Sched)
    (urls : List UrlData) :
    renderTotalMatches (runBatches fetchHtml q selector sched urls).results =
      ((runBatches fetchHtml q selector sched urls).results.map
        (fun e => e.count)).sum := by
  simp [renderTotalMatches, foldl_add_count]

/-- C7: with any admissible completion order (a permutation of each
batch's eligible pages) and pairwise-distinct URLs: the fetched URLs are
exactly the eligible pages' URLs in inventory order (so an ineligible
page never reaches the fetch stage); no result entry carries an
ineligible page's URL, whatever markup a fetcher would have returned for
it; and every inventory page still counts toward `processed` — each
eligible page once and each ineligible page twice, giving
`urls.length + #ineligible` in total. -/
theorem c7_ineligible_pages (fetchHtml : String → FetchOutcome)
    (q : String → String → Option Nat) (selector : String) {sched : Sched}
    (hperm : ∀ i l, (sched i l).Perm l) (urls : List UrlData)
    (hnodup : (urls.map (fun u => u.url)).Nodup) :
    (runBatches fetchHtml q selector sched urls).fetched =
        (urls.filter eligible).map (fun u => u.url) ∧
    (∀ u ∈ urls, eligible u = false →
        u.url ∉ (runBatches fetchHtml q selector sched urls).fetched) ∧
    (∀ u ∈ urls, eligible u = false →
        ∀ e ∈ (runBatches fetchHtml q selector sched urls).results, e.url ≠ u.url) ∧
    (runBatches fetchHtml q selector sched urls).processed =
        urls.length + (urls.filter (fun u => !eligible u)).length := by
  have hinj := List.inj_on_of_nodup_map hnodup
  refine ⟨runBatches_fetched fetchHtml q selector sched urls, ?_, ?_,
    runBatches_processed fetchHtml q selector hperm urls⟩
  · intro u hu hue hmem
    rw [runBatches_fetched] at hmem
    rcases List.mem_map.mp hmem with ⟨v, hvf, hveq⟩
    rcases List.mem_filter.mp hvf with ⟨hvu, hvel⟩
    have hv_eq : v = u := hinj hvu hu hveq
    rw [hv_eq, hue] at hvel
    exact Bool.false_ne_true hvel
  · intro u hu hue e he heq
    rcases runBatches_results_mem fetchHtml q selector hperm urls he with
      ⟨v, hv, hvel, hrun⟩
    have hvurl : v.url = u.url := ((runEligiblePage_fields hrun).1).symm.trans heq
    have hv_eq : v = u := hinj hv hu hvurl
    rw [hv_eq, hue] at hvel
    exact Bool.false_ne_true hvel

theorem c7_witness :
    ([pageBad, pageGood].map (fun u => u.url)).Nodup ∧
    ((runBatches fetchOK qOne selDiv schedId [pageBad, pageGood]).fetched =
        ([pageBad, pageGood].filter eligible).map (fun u => u.url) ∧
      (∀ u ∈ [pageBad, pageGood], eligible u = false →
        u.url ∉ (runBatches fetchOK qOne selDiv schedId [pageBad, pageGood]).fetched) ∧
      (∀ u ∈ [pageBad, pageGood], eligible u = false →
        ∀ e ∈ (runBatches fetchOK qOne selDiv schedId [pageBad, pageGood]).results,
          e.url ≠ u.url) ∧
      (runBatches fetchOK qOne selDiv schedId [pageBad, pageGood]).processed =
        [pageBad, pageGood].length +
          ([pageBad, pageGood].filter (fun u => !eligible u)).length) :=
  ⟨by decide, c7_ineligible_pages fetchOK qOne selDiv (fun _ l => List.Perm.refl l)
    [pageBad, pageGood] (by decide)⟩

/-- C8: for an eligible page `u` whose fetch fails (the promise rejects
or the fetcher answers `success: false`), with distinct URLs and an
admissible completion order: no result entry carries `u`'s URL; the run
still completes the full processed count (in particular `u` is still
counted); and the failure is isolated — any fetcher agreeing with this
one away from `u`'s URL yields exactly the same result entries for every
other page.  (A thrown error during matching cannot occur:
`countSelectorMatches` catches everything and returns a number.) -/
theorem c8_page_failure_isolated (fetchHtml : String → FetchOutcome)
    (q : String → String → Option Nat) (selector : String) {sched : Sched}
    (hperm : ∀ i l, (sched i l).Perm l) (urls : List UrlData)
    (hnodup : (urls.map (fun u => u.url)).Nodup)
    {u : UrlData} (hu : u ∈ urls) (helig : eligible u = true)
    (hfail : fetchFails (fetchHtml u.url)) :
    (∀ e ∈ (runBatches fetchHtml q selector sched urls).results, e.url ≠ u.url) ∧
    (runBatches fetchHtml q selector sched urls).processed =
      urls.length + (urls.filter (fun v => !eligible v)).length ∧
    (∀ g : String → FetchOutcome, (∀ url, url ≠ u.url → g url = fetchHtml url) →
      ∀ e : ResultEntry, e.url ≠ u.url →
        (e ∈ (runBatches g q selector sched urls).results ↔
          e ∈ (runBatches fetchHtml q selector sched urls).results)) := by
  have hinj := List.inj_on_of_nodup_map hnodup
  refine ⟨?_, runBatches_processed fetchHtml q selector hperm urls, ?_⟩
  · intro e he heq
    rcases runBatches_results_mem fetchHtml q selector hperm urls he with
      ⟨v, hv, hvel, hrun⟩
    have hvurl : v.url = u.url := ((runEligiblePage_fields hrun).1).symm.trans heq
    have hv_eq : v = u := hinj hv hu hvurl
    rw [hv_eq, runEligiblePage_none_of_fail hfail] at hrun
    exact Option.noConfusion hrun
  · intro g hagree e heu
    have h1 : e ∈ (runBatches g q selector sched urls).results ↔
        e ∈ (runBatches g q selector sched urls).rawResults :=
      (runBatches_results_perm g q selector sched urls).mem_iff
    have h2 : e ∈ (runBatches fetchHtml q selector sched urls).results ↔
        e ∈ (runBatches fetchHtml q selector sched urls).rawResults :=
      (runBatches_results_perm fetchHtml q selector sched urls).mem_iff
    rw [h1, h2]
    simp only [runBatches]
    exact runGo_rawResults_frame q selector sched urls.length hagree
      (chunk5 urls) 0 0 0 e heu

theorem c8_witness :
    ([pageA, pageGood].map (fun u => u.url)).Nodup ∧
    pageA ∈ [pageA, pageGood] ∧ eligible pageA = true ∧
    fetchFails (fetchFailA pageA.url) ∧
    ((∀ e ∈ (runBatches fetchFailA qOne selDiv schedId [pageA, pageGood]).results,
        e.url ≠ pageA.url) ∧
      (runBatches fetchFailA qOne selDiv schedId [pageA, pageGood]).processed =
        [pageA, pageGood].length +
          ([pageA, pageGood].filter (fun v => !eligible v)).length ∧
      (∀ g : String → FetchOutcome,
        (∀ url, url ≠ pageA.url → g url = fetchFailA url) →
        ∀ e : ResultEntry, e.url ≠ pageA.url →
          (e ∈ (runBatches g qOne selDiv schedId [pageA, pageGood]).results ↔
            e ∈ (runBatches fetchFailA qOne selDiv schedId [pageA, pageGood]).results))) :=
  ⟨by decide, by decide, by decide, by simp [fetchFailA, fetchFails],
    c8_page_failure_isolated fetchFailA qOne selDiv (fun _ l => List.Perm.refl l)
      [pageA, pageGood] (by decide) (by decide) (by decide)
      (by simp [fetchFailA, fetchFails])⟩

/-- C9 (counterexample): on `invMixed` the code's concurrent fetch groups
are the eligible pages of each five-page inventory slice — of sizes 1 and
5 — not the claimed partition of the eligible pages into batches of five
(sizes 5 and 1). -/
theorem c9_inventory_batching_not_eligible_batching :
    (codeEligibleBatches invMixed).map List.length = [1, 5] ∧
    (claimedEligibleBatches invMixed).map List.length = [5, 1] ∧
    codeEligibleBatches invMixed ≠ claimedEligibleBatches invMixed := by
  decide

/-- C9 (amended): the batches are five-page slices of the whole inventory
(a partition into nonempty chunks of at most five), processed strictly
sequentially — one progress publication per batch, and the fetch dispatch
order is the concatenation of the per-slice eligible groups; within a
slice only its eligible pages are fetched concurrently.  An inventory of
twelve (eligible) pages yields exactly three sequential batches of sizes
5, 5, 2. -/
theorem c9_amended_batching (fetchHtml : String → FetchOutcome)
    (q : String → String → Option Nat) (selector : String) (sched : Sched)
    (urls : List UrlData) :
    (chunk5 urls).flatten = urls ∧
    (∀ b ∈ chunk5 urls, 0 < b.length ∧ b.length ≤ 5) ∧
    (runBatches fetchHtml q selector sched urls).progress.length =
      (chunk5 urls).length ∧
    (runBatches fetchHtml q selector sched urls).fetched =
      ((chunk5 urls).map (fun b => (b.filter eligible).map (fun u => u.url))).flatten ∧
    (urls.length = 12 → (chunk5 urls).map List.length = [5, 5, 2]) := by
  refine ⟨chunk5_flatten urls, fun b hb => chunk5_mem_length hb, ?_, ?_, ?_⟩
  · simp only [runBatches]
    exact runGo_progress_length fetchHtml q selector sched urls.length
      (chunk5 urls) 0 0
  · simp only [runBatches]
    exact runGo_fetched fetchHtml q selector sched urls.length (chunk5 urls) 0 0
  · intro h12
    rw [chunk5_map_length, h12]
    decide

theorem c9_witness :
    inv12.length = 12 ∧
    (chunk5 inv12).map List.length = [5, 5, 2] ∧
    (chunk5 inv12).flatten = inv12 :=
  ⟨by decide,
    (c9_amended_batching fetchOK qOne selDiv schedId inv12).2.2.2.2 (by decide),
    (c9_amended_batching fetchOK qOne selDiv schedId inv12).1⟩

/-- C10: every result entry's title is the JS fallback
`urlData.title || urlData.url` of its source inventory page: the
inventory title itself when that is a non-empty string, and the page's
URL when the title is null/undefined (`none`) or empty.  (The field is a
`String`, never null.) -/
theorem c10_title_fallback (fetchHtml : String → FetchOutcome)
    (q : String → String → Option Nat) (selector : String) {sched : Sched}
    (hperm : ∀ i l, (sched i l).Perm l) (urls : List UrlData)
    {e : ResultEntry} (he : e ∈ (runBatches fetchHtml q selector sched urls).results) :
    ∃ v ∈ urls, e.url = v.url ∧ e.title = jsOrString v.title v.url ∧
      (∀ t, v.title = some t → t ≠ "" → e.title = t) ∧
      ((v.title = none ∨ v.title = some "") → e.title = v.url) := by
  rcases runBatches_results_mem fetchHtml q selector hperm urls he with
    ⟨v, hv, hvel, hrun⟩
  rcases runEligiblePage_fields hrun with ⟨hurl, htitle, _, _⟩
  refine ⟨v, hv, hurl, htitle, ?_, ?_⟩
  · intro t ht hne
    rw [htitle, ht]
    simp [jsOrString, hne]
  · intro hcase
    rcases hcase with h | h <;> rw [htitle, h] <;> simp [jsOrString]

theorem c10_witness :
    ∃ v ∈ [pageA], ResultEntry.url
        { url := pageA.url, title := pageA.url, count := 1, status_code := 200 } = v.url ∧
      ResultEntry.title
        { url := pageA.url, title := pageA.url, count := 1, status_code := 200 } =
        jsOrString v.title v.url ∧
      (∀ t, v.title = some t → t ≠ "" →
        ResultEntry.title
          { url := pageA.url, title := pageA.url, count := 1, status_code := 200 } = t) ∧
      ((v.title = none ∨ v.title = some "") →
        ResultEntry.title
          { url := pageA.url, title := pageA.url, count := 1, status_code := 200 } = v.url) :=
  c10_title_fallback fetchOK qOne selDiv (fun _ l => List.Perm.refl l) [pageA]
    (by decide)

end SelectorSearch
